import Mathlib

/-!
Verification of the Manifest frontend (`src/frontend/src/App.tsx`, main revision)
against its natural-language specification.

The file shallowly embeds the client logic: uploaded files are records of a
declared MIME type and a byte size, the React component state is an explicit
record, event handlers become state-transition functions, and every `fetch`
the client issues is made explicit as a `Request` value returned alongside the
new state.  JavaScript truthiness on optional strings (`null`/`undefined`/`""`
are falsy) is modelled faithfully at each use site.
-/

namespace Manifest

/-- Job status, mirroring the `Job` union type in `App.tsx`. -/
inductive JobStatus
  | queued
  | processing
  | succeeded
  | failed
deriving DecidableEq, Repr

/-- An uploaded browser `File`: the declared MIME type and the actual byte
length of the blob. -/
structure JSFile where
  type : String
  size : Nat
deriving DecidableEq, Repr

/-- A job snapshot as the client sees it (the `Job` type in `App.tsx`).
Optional fields absent from a server response are `none`. -/
structure Job where
  id : String
  status : JobStatus
  prompt : Option String := none
  image_url : Option String := none
  video_url : Option String := none
  error : Option String := none
  progress_stage : Option String := none
  estimated_remaining_seconds : Option ℚ := none
deriving DecidableEq, Repr

/-- Generation mode (`'preview' | 'full'`). -/
inductive Mode
  | preview
  | full
deriving DecidableEq, Repr

/-- The string the client appends to the multipart form for a mode. -/
def Mode.toName : Mode → String
  | .preview => "preview"
  | .full => "full"

/-- Leading-whitespace removal, one end of `String.prototype.trim`. -/
def dropWS : List Char → List Char
  | [] => []
  | c :: cs => if c.isWhitespace then dropWS cs else c :: cs

/-- `String.prototype.trim`: strip whitespace from both ends. -/
def jsTrim (s : String) : String :=
  String.mk (dropWS (dropWS s.data).reverse).reverse

/-- `formatETA` from `App.tsx`: seconds may be `null`/`undefined` (`none`) or a
JS number (modelled as a rational). `!seconds || seconds <= 0` collapses to the
`s ≤ 0` test since `0` is falsy; `Math.ceil` is `Int.ceil`. -/
def formatETA (seconds : Option ℚ) : String :=
  match seconds with
  | none => ""
  | some s =>
    if s ≤ 0 then ""
    else if s < 60 then
      "~" ++ toString ⌈s⌉ ++ " seconds"
    else
      let minutes := ⌈s / 60⌉
      "~" ++ toString minutes ++ " minute" ++ (if minutes > 1 then "s" else "")

/-- `validateFile` from `App.tsx`.  Returns the boolean result together with
the error message the call stores via `setError` (`none` models
`setError(null)`). -/
def validateFile (f : JSFile) : Bool × Option String :=
  if ¬ (f.type = "image/jpeg" ∨ f.type = "image/png") then
    (false, some "Please upload a JPEG or PNG image")
  else if f.size > 8 * 1024 * 1024 then
    (false, some "Please upload an image smaller than 8MB")
  else
    (true, none)

/-- A value appended to a `FormData` body: either a file blob or a string. -/
inductive FormValue
  | fileVal (f : JSFile)
  | strVal (s : String)
deriving DecidableEq, Repr

/-- A multipart request body: the `FormData` field list, in append order. -/
abbrev MultipartForm := List (String × FormValue)

/-- The `FormData` built by `submitGeneration`: `file`, `prompt`, `mode`, and
`session_id` only when `sessionId` is truthy (`if (sessionId)` in JS, so an
empty string is not appended). -/
def buildForm (f : JSFile) (prompt : String) (mode : Mode)
    (sessionId : Option String) : MultipartForm :=
  let base := [("file", FormValue.fileVal f), ("prompt", FormValue.strVal prompt),
               ("mode", FormValue.strVal mode.toName)]
  match sessionId with
  | some sid => if sid = "" then base else base ++ [("session_id", FormValue.strVal sid)]
  | none => base

/-- An HTTP request the client issues. -/
inductive Request
  | postGeneration (form : MultipartForm)
  | getGeneration (id : String)
  | postCreateSession
deriving DecidableEq, Repr

/-- The React component state of `App` (main revision).  `previewUrl` records
the file whose object URL is shown; `pollTimer` is the active `setInterval`
handle, recorded as the polled job id together with the interval period in
milliseconds. -/
structure ClientState where
  file : Option JSFile := none
  previewUrl : Option JSFile := none
  prompt : String := ""
  job : Option Job := none
  error : Option String := none
  submitting : Bool := false
  dragActive : Bool := false
  paidSessionId : Option String := none
  pollTimer : Option (String × Nat) := none
deriving DecidableEq, Repr

/-- The freshly mounted component: all `useState` initial values. -/
def initState : ClientState := {}

/-- Outcome of the `fetch` in `submitGeneration`: either a parsed
`{id, status}` JSON body, or a thrown error carrying `res.text()` /
the exception message. -/
inductive SubmitResult
  | ok (id : String) (status : JobStatus)
  | thrown (msg : String)
deriving DecidableEq, Repr

/-- `submitGeneration` from `App.tsx`: guard (`!file || !prompt.trim()`), then
build the multipart form and POST it; on success store the `{id, status}`
snapshot, on a thrown error store `e.message || 'Failed to create job'`.  The
returned list holds the requests issued by the call. -/
def submitGeneration (mode : Mode) (sessionId : Option String) (s : ClientState)
    (resp : SubmitResult) : ClientState × List Request :=
  match s.file with
  | none => ({ s with error := some "Upload a selfie and enter a prompt" }, [])
  | some f =>
    if jsTrim s.prompt = "" then
      ({ s with error := some "Upload a selfie and enter a prompt" }, [])
    else
      let form := buildForm f s.prompt mode sessionId
      match resp with
      | SubmitResult.ok id st =>
          ({ s with submitting := false, error := none,
                    job := some { id := id, status := st } },
           [Request.postGeneration form])
      | SubmitResult.thrown msg =>
          ({ s with submitting := false,
                    error := some (if msg = "" then "Failed to create job" else msg) },
           [Request.postGeneration form])

/-- Outcome of the `fetch` in `createCheckout`. -/
inductive CheckoutResult
  | ok (url : String)
  | thrown (msg : String)
deriving DecidableEq, Repr

/-- `createCheckout` from `App.tsx`: POST `/api/payments/create-session`; on
success the browser navigates to the returned URL (no state change recorded
here), on failure `e.message || 'Failed to start checkout'` is stored. -/
def createCheckout (s : ClientState) (resp : CheckoutResult) :
    ClientState × List Request :=
  match resp with
  | CheckoutResult.ok _ => (s, [Request.postCreateSession])
  | CheckoutResult.thrown msg =>
      ({ s with error := some (if msg = "" then "Failed to start checkout" else msg) },
       [Request.postCreateSession])

/-- String begins-with test over character lists (for JS `startsWith`). -/
def charsBeginWith : List Char → List Char → Bool
  | _, [] => true
  | [], _ :: _ => false
  | c :: cs, d :: ds => c == d && charsBeginWith cs ds

/-- `String.prototype.startsWith`: does `s` begin with `p`. -/
def strBeginsWith (s p : String) : Bool := charsBeginWith s.data p.data

/-- `fullButtonStep`: the actions-row ternary in `App.tsx`.  When
`paidSessionId` is truthy the rendered button submits a `full`-mode generation
carrying that session id; otherwise the rendered button starts the external
checkout flow.  `resp`/`checkoutResp` answer whichever fetch the branch
issues. -/
def fullButtonStep (s : ClientState) (resp : SubmitResult)
    (checkoutResp : CheckoutResult) : ClientState × List Request :=
  match s.paidSessionId with
  | some sid =>
      if sid = "" then createCheckout s checkoutResp
      else submitGeneration Mode.full (some sid) s resp
  | none => createCheckout s checkoutResp

/-- Outcome of the `fetch` in the `poll` callback: a parsed `Job` snapshot or
a thrown error. -/
inductive PollResult
  | ok (j : Job)
  | thrown (msg : String)
deriving DecidableEq, Repr

/-- The `poll` callback from `App.tsx`: store the snapshot; if it is terminal,
clear the interval and null the ref; on a thrown error store
`e.message || 'Polling error'`. -/
def pollUpdate (s : ClientState) (resp : PollResult) : ClientState :=
  match resp with
  | PollResult.ok data =>
      let s1 := { s with job := some data }
      if data.status = JobStatus.succeeded ∨ data.status = JobStatus.failed then
        { s1 with pollTimer := none }
      else s1
  | PollResult.thrown msg =>
      { s with error := some (if msg = "" then "Polling error" else msg) }

/-- Timer-level actions taken by the polling `useEffect`. -/
inductive TimerAction
  | clearTimer (id : String) (period : Nat)
  | installTimer (id : String) (period : Nat)
  | fetchNow (id : String)
deriving DecidableEq, Repr

/-- The polling `useEffect` body from `App.tsx` (dependency `[job?.id]`): when
a job with a truthy id is held in a non-terminal status, clear any prior
interval, install `setInterval(() => poll(job.id), 1500)` and fire one
immediate `poll(job.id)`; otherwise do nothing. -/
def pollingEffect (s : ClientState) : ClientState × List TimerAction :=
  match s.job with
  | some j =>
      if j.id ≠ "" ∧ (j.status = JobStatus.queued ∨ j.status = JobStatus.processing) then
        ({ s with pollTimer := some (j.id, 1500) },
         (match s.pollTimer with
          | some (oldId, oldP) => [TimerAction.clearTimer oldId oldP]
          | none => []) ++
           [TimerAction.installTimer j.id 1500, TimerAction.fetchNow j.id])
      else (s, [])
  | none => (s, [])

/-- Events of the polling subsystem: an interval tick, or React re-running the
polling effect.  Each carries the server's answer to the GET it triggers. -/
inductive PollEvent
  | tick (resp : PollResult)
  | effectRun (resp : PollResult)
deriving DecidableEq, Repr

/-- One polling-subsystem transition.  A tick only fires while an interval is
installed and polls the id it was installed for; an effect run re-executes the
`useEffect` body, whose immediate fetch (when the guard holds) is answered by
`resp`. -/
def pollStep (s : ClientState) : PollEvent → ClientState × List Request
  | PollEvent.tick resp =>
      match s.pollTimer with
      | some (id, _) => (pollUpdate s resp, [Request.getGeneration id])
      | none => (s, [])
  | PollEvent.effectRun resp =>
      match s.job with
      | some j =>
          if j.id ≠ "" ∧ (j.status = JobStatus.queued ∨ j.status = JobStatus.processing) then
            (pollUpdate { s with pollTimer := some (j.id, 1500) } resp,
             [Request.getGeneration j.id])
          else (s, [])
      | none => (s, [])

/-- Run a sequence of polling events, collecting every GET issued. -/
def pollRun (s : ClientState) : List PollEvent → ClientState × List Request
  | [] => (s, [])
  | e :: es =>
      let (s1, r1) := pollStep s e
      let (s2, r2) := pollRun s1 es
      (s2, r1 ++ r2)

/-- `onSelectFile` from `App.tsx`: take the first chosen file (if any); only a
file passing `validateFile` is stored (with its preview object URL). -/
def onSelectFile (s : ClientState) (chosen : Option JSFile) : ClientState :=
  match chosen with
  | none => s
  | some f =>
      let v := validateFile f
      if v.1 then { s with error := v.2, file := some f, previewUrl := some f }
      else { s with error := v.2 }

/-- `handleDrop` from `App.tsx`: drag state ends; a dropped file is stored only
if it passes `validateFile`. -/
def handleDrop (s : ClientState) (dropped : Option JSFile) : ClientState :=
  let s0 := { s with dragActive := false }
  match dropped with
  | none => s0
  | some f =>
      let v := validateFile f
      if v.1 then { s0 with error := v.2, file := some f, previewUrl := some f }
      else { s0 with error := v.2 }

/-- `resetForm` from `App.tsx`. -/
def resetFormStep (s : ClientState) : ClientState :=
  { s with file := none, previewUrl := none, prompt := "", job := none, error := none }

/-- The Stripe-success capture `useEffect` from `App.tsx`: store the URL
`session_id` only when `checkout === 'success'` and the id is truthy. -/
def captureSessionStep (s : ClientState) (checkoutParam sessionParam : Option String) :
    ClientState :=
  match checkoutParam, sessionParam with
  | some c, some t => if c = "success" ∧ t ≠ "" then { s with paidSessionId := some t } else s
  | _, _ => s

/-- User-visible client events for the upload/submission flow.  Each
network-touching event carries the server's response as an oracle. -/
inductive ClientEvent
  | selectFile (chosen : Option JSFile)
  | dropFile (dropped : Option JSFile)
  | editPrompt (p : String)
  | chipClick (p : String)
  | submitPreview (resp : SubmitResult)
  | fullButton (resp : SubmitResult) (checkoutResp : CheckoutResult)
  | resetEvent
  | captureSession (checkoutParam sessionParam : Option String)
  | pollEvent (e : PollEvent)
deriving DecidableEq, Repr

/-- One client transition, returning the requests the event's handler issues.
Submit buttons are disabled while `submitting` (and the Enter key handler
checks `!submitting`), so those events are no-ops then. -/
def stepClient (s : ClientState) : ClientEvent → ClientState × List Request
  | ClientEvent.selectFile chosen => (onSelectFile s chosen, [])
  | ClientEvent.dropFile dropped => (handleDrop s dropped, [])
  | ClientEvent.editPrompt p => ({ s with prompt := p }, [])
  | ClientEvent.chipClick p => ({ s with prompt := p }, [])
  | ClientEvent.submitPreview resp =>
      if s.submitting then (s, []) else submitGeneration Mode.preview none s resp
  | ClientEvent.fullButton resp checkoutResp =>
      if s.submitting then (s, []) else fullButtonStep s resp checkoutResp
  | ClientEvent.resetEvent => (resetFormStep s, [])
  | ClientEvent.captureSession c t => (captureSessionStep s c t, [])
  | ClientEvent.pollEvent e => pollStep s e

/-- Run a sequence of client events from a state, collecting every request. -/
def runClient (s : ClientState) : List ClientEvent → ClientState × List Request
  | [] => (s, [])
  | e :: es =>
      let (s1, r1) := stepClient s e
      let (s2, r2) := runClient s1 es
      (s2, r1 ++ r2)

/-- The local artifact stream endpoint for a job id. -/
def streamUrl (id : String) : String := "/api/generations/" ++ id ++ "/video"

/-- JS `a || b` on an optional string: `b` when `a` is `null`/`undefined`/`""`. -/
def jsOrElse (v : Option String) (dflt : String) : String :=
  match v with
  | some u => if u = "" then dflt else u
  | none => dflt

/-- Source of the `video` element for a succeeded job (main revision):
`job.video_url || stream endpoint`. -/
def videoSrc (j : Job) : String := jsOrElse j.video_url (streamUrl j.id)

/-- `href` of the download anchor for a succeeded job:
`job.video_url || stream endpoint`. -/
def downloadHref (j : Job) : String := jsOrElse j.video_url (streamUrl j.id)

/-- `target` of the download anchor:
`job.video_url?.startsWith('http') ? '_blank' : '_self'`. -/
def downloadTarget (j : Job) : String :=
  match j.video_url with
  | some u => if strBeginsWith u "http" then "_blank" else "_self"
  | none => "_self"

/-- How the first revision of `App.tsx` presents a succeeded job's video:
an external `video_url` beginning with `http` becomes an anchor opened in a
new tab; otherwise an inline `video` element on `video_url || stream`. -/
inductive VideoPlayback
  | externalLink (url : String)
  | inlinePlayer (src : String)
deriving DecidableEq, Repr

/-- The v1 video-preview branch. -/
def videoPlaybackV1 (j : Job) : VideoPlayback :=
  match j.video_url with
  | some u =>
      if strBeginsWith u "http" then VideoPlayback.externalLink u
      else VideoPlayback.inlinePlayer (jsOrElse (some u) (streamUrl j.id))
  | none => VideoPlayback.inlinePlayer (streamUrl j.id)

/-- Validation failure kinds distinguished by the spec's MediaValidator. -/
inductive ValidationKind
  | unsupportedFormat
  | tooLarge
deriving DecidableEq, Repr

/-- Outcome of a creation request at the backend boundary. -/
inductive CreateOutcome
  | created (id : String)
  | validationError (k : ValidationKind)
  | paymentRequired
deriving DecidableEq, Repr

/-- Modelled from the spec: the backend generation orchestrator behind
`POST /api/generations` is not under `src/` (only the backend README is), so
its creation path is modelled from the spec's words: the MediaValidator runs
before any job is created (accepting only `image/jpeg`/`image/png` up to
8 MiB), then `mode=full` requires a verified payment proof — an absent or
invalid proof fails the request with `PaymentRequired` before any Job record
is created; on success a Job is allocated in state `queued`.  `isPaidSession`
stands for the external payment collaborator's verification of a session
token. -/
def handleCreate (store : List Job) (f : JSFile) (prompt : String) (mode : Mode)
    (sessionId : Option String) (isPaidSession : String → Bool) (newId : String) :
    CreateOutcome × List Job :=
  if ¬ (f.type = "image/jpeg" ∨ f.type = "image/png") then
    (CreateOutcome.validationError ValidationKind.unsupportedFormat, store)
  else if f.size > 8 * 1024 * 1024 then
    (CreateOutcome.validationError ValidationKind.tooLarge, store)
  else if mode = Mode.full ∧ (match sessionId with
      | some sid => isPaidSession sid
      | none => false) = false then
    (CreateOutcome.paymentRequired, store)
  else
    (CreateOutcome.created newId,
     store ++ [{ id := newId, status := JobStatus.queued, prompt := some prompt }])

/-- Invariant: any file held in the component state passed `validateFile`. -/
def fileOk (s : ClientState) : Prop :=
  ∀ f, s.file = some f → (validateFile f).1 = true

/-! ## Helper lemmas -/

theorem validateFile_true_iff (f : JSFile) :
    (validateFile f).1 = true ↔
      (f.type = "image/jpeg" ∨ f.type = "image/png") ∧ f.size ≤ 8 * 1024 * 1024 := by
  unfold validateFile
  split_ifs with h1 h2 <;> simp_all

theorem mode_toName_full (m : Mode) : m.toName = "full" ↔ m = Mode.full := by
  cases m <;> simp [Mode.toName]

/-! ## Claim C10: the shape of formatETA -/

/-- Claim C10: `formatETA` is total with three cases: empty output for
`null`/`undefined` or non-positive seconds, `~⌈s⌉ seconds` for `0 < s < 60`,
and `~⌈s/60⌉ minute(s)` for `s ≥ 60`, pluralised exactly when the ceiling of
minutes exceeds one. -/
theorem formatETA_cases :
    formatETA none = "" ∧
    (∀ q : ℚ, q ≤ 0 → formatETA (some q) = "") ∧
    (∀ q : ℚ, 0 < q → q < 60 →
       formatETA (some q) = "~" ++ toString ⌈q⌉ ++ " seconds") ∧
    (∀ q : ℚ, 60 ≤ q →
       formatETA (some q) =
         "~" ++ toString ⌈q / 60⌉ ++ " minute" ++ (if 1 < ⌈q / 60⌉ then "s" else "")) := by
  refine ⟨rfl, ?_, ?_, ?_⟩
  · intro q h
    simp only [formatETA]
    rw [if_pos h]
  · intro q h0 h60
    simp only [formatETA]
    rw [if_neg (not_le.mpr h0), if_pos h60]
  · intro q h
    simp only [formatETA]
    rw [if_neg (by linarith), if_neg (not_lt.mpr h)]

theorem formatETA_cases_check : formatETA (some 90) = "~2 minutes" := by
  have h := formatETA_cases.2.2.2 90 (by norm_num)
  have hc : ⌈(90 : ℚ) / 60⌉ = 2 := by
    rw [Int.ceil_eq_iff]
    norm_num
  rw [h, hc]
  decide

/-! ## Claim C3: accepted media kinds -/

/-- Claim C3: `validateFile` rejects every declared type other than
`image/jpeg`/`image/png` with the format error message and such a file is
never stored; files of the two accepted types within the size bound validate
to `true` with the error cleared, and the picker stores them. -/
theorem validateFile_media_kinds (f : JSFile) :
    (f.type ≠ "image/jpeg" → f.type ≠ "image/png" →
       validateFile f = (false, some "Please upload a JPEG or PNG image") ∧
       ∀ s : ClientState, (onSelectFile s (some f)).file = s.file ∧
         (handleDrop s (some f)).file = s.file) ∧
    ((f.type = "image/jpeg" ∨ f.type = "image/png") → f.size ≤ 8 * 1024 * 1024 →
       validateFile f = (true, none) ∧
       ∀ s : ClientState, (onSelectFile s (some f)).file = some f ∧
         (onSelectFile s (some f)).error = none) := by
  constructor
  · intro h1 h2
    have hv : validateFile f = (false, some "Please upload a JPEG or PNG image") := by
      unfold validateFile
      rw [if_pos (by tauto)]
    refine ⟨hv, fun s => ?_⟩
    constructor
    · simp [onSelectFile, hv]
    · simp [handleDrop, hv]
  · intro h1 h2
    have hv : validateFile f = (true, none) := by
      unfold validateFile
      rw [if_neg (by tauto), if_neg (by omega)]
    refine ⟨hv, fun s => ?_⟩
    constructor
    · simp [onSelectFile, hv]
    · simp [onSelectFile, hv]

theorem validateFile_media_kinds_check :
    validateFile { type := "image/gif", size := 100 } =
      (false, some "Please upload a JPEG or PNG image") ∧
    validateFile { type := "image/png", size := 100 } = (true, none) :=
  ⟨((validateFile_media_kinds _).1 (by decide) (by decide)).1,
   ((validateFile_media_kinds _).2 (Or.inr rfl) (by decide)).1⟩

/-! ## Claim C4: the 8 MiB size limit -/

/-- Claim C4 counterexample: an oversized file whose declared type is not an
accepted image kind is rejected with the format error message, not the
size (TooLarge) message, because the type check runs first. -/
theorem validateFile_oversized_gif :
    8 * 1024 * 1024 < (10 * 1024 * 1024 : Nat) ∧
    validateFile { type := "image/gif", size := 10 * 1024 * 1024 } =
      (false, some "Please upload a JPEG or PNG image") := by
  constructor
  · decide
  · rfl

/-- Claim C4 (amended): a jpeg/png file strictly larger than `8*1024*1024`
bytes is rejected with the TooLarge message; every oversized file is rejected
(`validateFile` is `false`, though wrong-type files get the format message);
a jpeg/png file of exactly `8*1024*1024` bytes passes validation. -/
theorem validateFile_size_limit (f : JSFile) :
    ((f.type = "image/jpeg" ∨ f.type = "image/png") → 8 * 1024 * 1024 < f.size →
       validateFile f = (false, some "Please upload an image smaller than 8MB")) ∧
    ((f.type = "image/jpeg" ∨ f.type = "image/png") → f.size = 8 * 1024 * 1024 →
       validateFile f = (true, none)) ∧
    (8 * 1024 * 1024 < f.size → (validateFile f).1 = false) := by
  refine ⟨?_, ?_, ?_⟩
  · intro h1 h2
    unfold validateFile
    rw [if_neg (by tauto), if_pos (by omega)]
  · intro h1 h2
    unfold validateFile
    rw [if_neg (by tauto), if_neg (by omega)]
  · intro h
    unfold validateFile
    split_ifs <;> simp_all

theorem validateFile_size_limit_check :
    validateFile { type := "image/jpeg", size := 10 * 1024 * 1024 } =
      (false, some "Please upload an image smaller than 8MB") ∧
    validateFile { type := "image/jpeg", size := 8 * 1024 * 1024 } = (true, none) :=
  ⟨(validateFile_size_limit _).1 (Or.inl rfl) (by decide),
   (validateFile_size_limit _).2.1 (Or.inl rfl) rfl⟩

/-! ## Claim C9: the submission precondition -/

/-- Claim C9: when no file is selected or the prompt is empty or
whitespace-only, `submitGeneration` issues no HTTP request, leaves the job
state unchanged, and sets the error message. -/
theorem submit_requires_file_and_prompt (s : ClientState) (mode : Mode)
    (sid : Option String) (resp : SubmitResult)
    (h : s.file = none ∨ jsTrim s.prompt = "") :
    (submitGeneration mode sid s resp).1.job = s.job ∧
    (submitGeneration mode sid s resp).1.error =
      some "Upload a selfie and enter a prompt" ∧
    (submitGeneration mode sid s resp).2 = [] := by
  rcases h with h | h
  · simp [submitGeneration, h]
  · cases hf : s.file with
    | none => simp [submitGeneration, hf]
    | some f => simp [submitGeneration, hf, h]

theorem buildForm_file_iff (g f : JSFile) (p : String) (m : Mode)
    (sid : Option String) :
    ("file", FormValue.fileVal g) ∈ buildForm f p m sid ↔ g = f := by
  unfold buildForm
  cases sid with
  | none => simp
  | some u =>
      by_cases hu : u = "" <;> simp [hu]

theorem buildForm_prompt_mem (f : JSFile) (p : String) (m : Mode)
    (sid : Option String) :
    ("prompt", FormValue.strVal p) ∈ buildForm f p m sid := by
  unfold buildForm
  cases sid with
  | none => simp
  | some u =>
      by_cases hu : u = "" <;> simp [hu]

theorem buildForm_mode_iff (t : String) (f : JSFile) (p : String) (m : Mode)
    (sid : Option String) :
    ("mode", FormValue.strVal t) ∈ buildForm f p m sid ↔ t = m.toName := by
  unfold buildForm
  cases sid with
  | none => simp
  | some u =>
      by_cases hu : u = "" <;> simp [hu]

theorem buildForm_session_iff (t : String) (f : JSFile) (p : String) (m : Mode)
    (sid : Option String) :
    ("session_id", FormValue.strVal t) ∈ buildForm f p m sid ↔
      sid = some t ∧ t ≠ "" := by
  unfold buildForm
  cases sid with
  | none => simp
  | some u =>
      by_cases hu : u = "" <;> simp [hu] <;> aesop

theorem buildForm_names (nm : String) (v : FormValue) (f : JSFile) (p : String)
    (m : Mode) (sid : Option String) (h : (nm, v) ∈ buildForm f p m sid) :
    nm = "file" ∨ nm = "prompt" ∨ nm = "mode" ∨ nm = "session_id" := by
  unfold buildForm at h
  cases sid with
  | none =>
      simp only [List.mem_cons, List.not_mem_nil, or_false, Prod.mk.injEq] at h
      tauto
  | some u =>
      by_cases hu : u = "" <;>
        simp only [hu, if_pos, if_neg, ite_true, ite_false, List.mem_append,
          List.mem_cons, List.mem_singleton, List.not_mem_nil, or_false,
          Prod.mk.injEq] at h <;> tauto

theorem submit_requires_file_and_prompt_check :
    (submitGeneration Mode.preview none { prompt := "hi" }
        (SubmitResult.ok "j" JobStatus.queued)).2 = [] ∧
    (submitGeneration Mode.preview none
        { file := some { type := "image/png", size := 5 }, prompt := "   " }
        (SubmitResult.ok "j" JobStatus.queued)).1.error =
      some "Upload a selfie and enter a prompt" :=
  ⟨(submit_requires_file_and_prompt _ _ _ _ (Or.inl rfl)).2.2,
   (submit_requires_file_and_prompt _ _ _ _ (Or.inr (by decide))).2.1⟩

/-! ## Claim C7: the multipart request body shape -/

/-- Claim C7: every POST `/api/generations` issued by `submitGeneration`
carries exactly the fields `file`, `prompt` and `mode` (the mode string being
`preview` or `full`), plus `session_id` exactly when a non-empty session
identifier was supplied to the call; no other fields are appended. -/
theorem generation_request_shape (s : ClientState) (mode : Mode)
    (sid : Option String) (resp : SubmitResult) (form : MultipartForm)
    (h : Request.postGeneration form ∈ (submitGeneration mode sid s resp).2) :
    ∃ f, s.file = some f ∧ form = buildForm f s.prompt mode sid ∧
      ("file", FormValue.fileVal f) ∈ form ∧
      ("prompt", FormValue.strVal s.prompt) ∈ form ∧
      ("mode", FormValue.strVal mode.toName) ∈ form ∧
      (mode.toName = "preview" ∨ mode.toName = "full") ∧
      (∀ t, ("session_id", FormValue.strVal t) ∈ form ↔ sid = some t ∧ t ≠ "") ∧
      (∀ nm v, (nm, v) ∈ form →
         nm = "file" ∨ nm = "prompt" ∨ nm = "mode" ∨ nm = "session_id") := by
  have hform : ∃ f, s.file = some f ∧ form = buildForm f s.prompt mode sid := by
    unfold submitGeneration at h
    cases hf : s.file with
    | none => simp [hf] at h
    | some f =>
        rw [hf] at h
        by_cases ht : jsTrim s.prompt = ""
        · simp [ht] at h
        · cases resp <;> simp [ht] at h <;> exact ⟨f, rfl, h⟩
  obtain ⟨f, hf, rfl⟩ := hform
  refine ⟨f, hf, rfl, (buildForm_file_iff f f _ _ _).mpr rfl,
    buildForm_prompt_mem f _ _ _, (buildForm_mode_iff _ f _ _ _).mpr rfl,
    ?_, fun t => buildForm_session_iff t f _ _ _,
    fun nm v hv => buildForm_names nm v f _ _ _ hv⟩
  cases mode <;> simp [Mode.toName]

theorem generation_request_shape_check :
    ("mode", FormValue.strVal "full") ∈
      buildForm { type := "image/png", size := 5 } "dream" Mode.full (some "cs_123") ∧
    ("session_id", FormValue.strVal "cs_123") ∈
      buildForm { type := "image/png", size := 5 } "dream" Mode.full (some "cs_123") := by
  obtain ⟨f, hf, hform, hfile, hprompt, hmode, hmodes, hsess, hnames⟩ :=
    generation_request_shape
      { file := some { type := "image/png", size := 5 }, prompt := "dream" }
      Mode.full (some "cs_123") (SubmitResult.ok "j1" JobStatus.queued)
      (buildForm { type := "image/png", size := 5 } "dream" Mode.full (some "cs_123"))
      (by decide)
  exact ⟨hmode, (hsess "cs_123").mpr ⟨rfl, by decide⟩⟩

/-! ## Claim C6: video source selection -/

theorem strBeginsWith_http_props (u : String)
    (h : strBeginsWith u "http" = true) :
    u ≠ "" ∧ strBeginsWith u "/api/" = false := by
  obtain ⟨data⟩ := u
  cases data with
  | nil => exact absurd h (by decide)
  | cons c cs =>
      have hc : c = 'h' := by
        have h2 : (c == 'h' && charsBeginWith cs ['t', 't', 'p']) = true := h
        have := (Bool.and_eq_true _ _).mp h2
        exact beq_iff_eq.mp this.1
      subst hc
      constructor
      · intro he
        have : ('h' :: cs : List Char) = [] := congrArg String.data he
        exact absurd this (by simp)
      · show charsBeginWith ('h' :: cs) "/api/".data = false
        have hne : ('h' == '/') = false := by decide
        simp [charsBeginWith, hne]

/-- Claim C6: for a succeeded job the playback and download source is
`job.video_url` whenever a non-empty URL is present, and the local stream
endpoint `/api/generations/id/video` when it is absent; a `video_url`
beginning with `http` is opened directly (new-tab anchor target in the main
revision, an external link in the first revision) and is never the local
stream endpoint. -/
theorem video_source_selection (j : Job) (u : String) :
    (j.video_url = some u → u ≠ "" → videoSrc j = u ∧ downloadHref j = u) ∧
    (j.video_url = none →
       videoSrc j = streamUrl j.id ∧ downloadHref j = streamUrl j.id) ∧
    (j.video_url = some u → strBeginsWith u "http" = true →
       downloadTarget j = "_blank" ∧
       videoPlaybackV1 j = VideoPlayback.externalLink u ∧
       videoSrc j = u ∧ strBeginsWith (videoSrc j) "/api/" = false) := by
  refine ⟨?_, ?_, ?_⟩
  · intro hv hu
    constructor <;> simp [videoSrc, downloadHref, jsOrElse, hv, hu]
  · intro hv
    constructor <;> simp [videoSrc, downloadHref, jsOrElse, hv]
  · intro hv hh
    obtain ⟨hne, hapi⟩ := strBeginsWith_http_props u hh
    have hsrc : videoSrc j = u := by simp [videoSrc, jsOrElse, hv, hne]
    refine ⟨?_, ?_, hsrc, hsrc ▸ hapi⟩
    · simp [downloadTarget, hv, hh]
    · simp [videoPlaybackV1, hv, hh]

theorem video_source_selection_check :
    videoSrc { id := "j1", status := JobStatus.succeeded, video_url := some "https://cdn.example/v.mp4" } = "https://cdn.example/v.mp4" ∧
    downloadTarget { id := "j1", status := JobStatus.succeeded, video_url := some "https://cdn.example/v.mp4" } = "_blank" ∧
    videoSrc { id := "j1", status := JobStatus.succeeded } =
      "/api/generations/j1/video" := by
  refine ⟨?_, ?_, ?_⟩
  · exact ((video_source_selection _ "https://cdn.example/v.mp4").1 rfl (by decide)).1
  · exact ((video_source_selection _ "https://cdn.example/v.mp4").2.2 rfl (by decide)).1
  · exact ((video_source_selection _ "").2.1 rfl).1

/-! ## Claim C8: the polling timer -/

/-- Claim C8: whenever a job snapshot with a (truthy) id and status `queued`
or `processing` is held, the polling effect installs an interval timer with
the fixed period 1500 ms for that job, issues one immediate fetch, and keeps
a single active timer: any prior timer is cleared first (the clear action
precedes the install in the emitted action list). -/
theorem polling_timer_install (s : ClientState) (j : Job)
    (hjob : s.job = some j) (hid : j.id ≠ "")
    (hst : j.status = JobStatus.queued ∨ j.status = JobStatus.processing) :
    (pollingEffect s).1.pollTimer = some (j.id, 1500) ∧
    TimerAction.installTimer j.id 1500 ∈ (pollingEffect s).2 ∧
    TimerAction.fetchNow j.id ∈ (pollingEffect s).2 ∧
    (∀ id p, TimerAction.installTimer id p ∈ (pollingEffect s).2 →
       id = j.id ∧ p = 1500) ∧
    (s.pollTimer = none →
       (pollingEffect s).2 =
         [TimerAction.installTimer j.id 1500, TimerAction.fetchNow j.id]) ∧
    (∀ oldId oldP, s.pollTimer = some (oldId, oldP) →
       (pollingEffect s).2 =
         [TimerAction.clearTimer oldId oldP, TimerAction.installTimer j.id 1500,
          TimerAction.fetchNow j.id]) := by
  have hact : pollingEffect s =
      ({ s with pollTimer := some (j.id, 1500) },
       (match s.pollTimer with
        | some (oldId, oldP) => [TimerAction.clearTimer oldId oldP]
        | none => []) ++
         [TimerAction.installTimer j.id 1500, TimerAction.fetchNow j.id]) := by
    unfold pollingEffect
    rw [hjob]
    exact if_pos ⟨hid, hst⟩
  rw [hact]
  refine ⟨rfl, ?_, ?_, ?_, ?_, ?_⟩
  · simp
  · simp
  · intro id p hmem
    rcases hs : s.pollTimer with - | ⟨oldId, oldP⟩ <;> rw [hs] at hmem <;>
      simp at hmem <;> tauto
  · intro hs
    rw [hs]
    rfl
  · intro oldId oldP hs
    rw [hs]
    rfl

theorem polling_timer_install_check :
    (pollingEffect { job := some { id := "j1", status := JobStatus.processing }, pollTimer := some ("j0", 1500) }).2 =
      [TimerAction.clearTimer "j0" 1500, TimerAction.installTimer "j1" 1500,
       TimerAction.fetchNow "j1"] :=
  ((polling_timer_install _ _ rfl (by decide) (Or.inr rfl)).2.2.2.2.2 "j0" 1500 rfl)

/-! ## Claim C5: terminal statuses absorb polling -/

/-- Claim C5: once a polled snapshot reports `succeeded` or `failed` the
client clears its interval (the `poll` callback nulls the timer), a re-run of
the polling effect on a terminal job installs nothing, and from a state whose
held job is terminal with no timer installed, no sequence of polling events
ever issues another GET for the job: the state is a fixpoint of the polling
subsystem.  Polling is (re)installed only while the status is `queued` or
`processing`. -/
theorem poll_terminal_absorbing :
    (∀ (s : ClientState) (j : Job),
       j.status = JobStatus.succeeded ∨ j.status = JobStatus.failed →
       (pollUpdate s (PollResult.ok j)).pollTimer = none ∧
       (pollUpdate s (PollResult.ok j)).job = some j) ∧
    (∀ (s : ClientState) (resp : PollResult) (j : Job), s.job = some j →
       j.status = JobStatus.succeeded ∨ j.status = JobStatus.failed →
       pollStep s (PollEvent.effectRun resp) = (s, [])) ∧
    (∀ (s : ClientState), s.pollTimer = none →
       (∀ j, s.job = some j →
          j.status = JobStatus.succeeded ∨ j.status = JobStatus.failed) →
       ∀ evts, pollRun s evts = (s, [])) := by
  have heff : ∀ (s : ClientState) (resp : PollResult) (j : Job), s.job = some j →
      j.status = JobStatus.succeeded ∨ j.status = JobStatus.failed →
      pollStep s (PollEvent.effectRun resp) = (s, []) := by
    intro s resp j hjob hst
    simp only [pollStep, hjob]
    rcases hst with h | h <;> rw [if_neg (by simp [h])]
  refine ⟨?_, heff, ?_⟩
  · intro s j hst
    constructor <;> simp [pollUpdate, hst]
  · intro s htimer hterm evts
    induction evts with
    | nil => rfl
    | cons e es ih =>
        have hstep : pollStep s e = (s, []) := by
          cases e with
          | tick resp => simp [pollStep, htimer]
          | effectRun resp =>
              cases hj : s.job with
              | none => simp [pollStep, hj]
              | some j => exact heff s resp j hj (hterm j hj)
        show (let p1 := pollStep s e
              let p2 := pollRun p1.1 es
              (p2.1, p1.2 ++ p2.2)) = (s, [])
        rw [hstep]
        simp [ih]

theorem poll_terminal_absorbing_check :
    pollRun { job := some { id := "j1", status := JobStatus.succeeded, video_url := some "v" } }
        [PollEvent.tick (PollResult.ok { id := "j1", status := JobStatus.queued }),
         PollEvent.effectRun (PollResult.thrown "boom")] =
      ({ job := some { id := "j1", status := JobStatus.succeeded, video_url := some "v" } }, []) := by
  refine poll_terminal_absorbing.2.2 _ rfl ?_ _
  intro j hj
  have hj' : some { id := "j1", status := JobStatus.succeeded, video_url := some "v" : Job } = some j := hj
  rw [← Option.some.injEq _ _ |>.mpr rfl] at hj'
  cases Option.some.inj hj'
  exact Or.inl rfl

/-! ## Trace lemmas for the client event system -/

theorem submitGeneration_file (mode : Mode) (sid : Option String)
    (s : ClientState) (resp : SubmitResult) :
    (submitGeneration mode sid s resp).1.file = s.file := by
  cases hf : s.file with
  | none => simp [submitGeneration, hf]
  | some f =>
      by_cases ht : jsTrim s.prompt = "" <;>
        cases resp <;> simp [submitGeneration, hf, ht]

theorem createCheckout_file (s : ClientState) (resp : CheckoutResult) :
    (createCheckout s resp).1.file = s.file := by
  cases resp <;> simp [createCheckout]

theorem fullButtonStep_file (s : ClientState) (resp : SubmitResult)
    (co : CheckoutResult) : (fullButtonStep s resp co).1.file = s.file := by
  unfold fullButtonStep
  cases hp : s.paidSessionId with
  | none => exact createCheckout_file s co
  | some t =>
      show (if t = "" then createCheckout s co
        else submitGeneration Mode.full (some t) s resp).1.file = s.file
      by_cases ht : t = ""
      · rw [if_pos ht]
        exact createCheckout_file s co
      · rw [if_neg ht]
        exact submitGeneration_file _ _ _ _

theorem pollUpdate_file (s : ClientState) (resp : PollResult) :
    (pollUpdate s resp).file = s.file := by
  cases resp with
  | ok j => by_cases h : j.status = JobStatus.succeeded ∨ j.status = JobStatus.failed <;>
      simp [pollUpdate, h]
  | thrown msg => rfl

theorem pollStep_file (s : ClientState) (e : PollEvent) :
    (pollStep s e).1.file = s.file := by
  cases e with
  | tick resp =>
      cases ht : s.pollTimer with
      | none => simp [pollStep, ht]
      | some pr =>
          obtain ⟨id, p⟩ := pr
          simp [pollStep, ht, pollUpdate_file]
  | effectRun resp =>
      cases hj : s.job with
      | none => simp [pollStep, hj]
      | some j =>
          by_cases hc : j.id ≠ "" ∧
            (j.status = JobStatus.queued ∨ j.status = JobStatus.processing)
          · simp only [pollStep, hj, if_pos hc]
            rw [pollUpdate_file]
          · simp [pollStep, hj, hc]

theorem fileOk_of_eq {s t : ClientState} (h : t.file = s.file) (hs : fileOk s) :
    fileOk t := fun g hg => hs g (h ▸ hg)

theorem stepClient_fileOk (s : ClientState) (e : ClientEvent) (hs : fileOk s) :
    fileOk (stepClient s e).1 := by
  cases e with
  | selectFile chosen =>
      cases chosen with
      | none => exact hs
      | some f =>
          by_cases hv : (validateFile f).1 = true
          · intro g hg
            simp only [stepClient, onSelectFile, hv, if_true] at hg
            have : some f = some g := hg
            cases Option.some.inj this
            exact hv
          · intro g hg
            simp only [stepClient, onSelectFile, Bool.not_eq_true] at hg
            rw [Bool.not_eq_true] at hv
            simp only [hv, Bool.false_eq_true, if_false] at hg
            exact hs g hg
  | dropFile dropped =>
      cases dropped with
      | none => exact fun g hg => hs g hg
      | some f =>
          by_cases hv : (validateFile f).1 = true
          · intro g hg
            simp only [stepClient, handleDrop, hv, if_true] at hg
            have : some f = some g := hg
            cases Option.some.inj this
            exact hv
          · intro g hg
            simp only [stepClient, handleDrop, Bool.not_eq_true] at hg
            rw [Bool.not_eq_true] at hv
            simp only [hv, Bool.false_eq_true, if_false] at hg
            exact hs g hg
  | editPrompt p => exact fun g hg => hs g hg
  | chipClick p => exact fun g hg => hs g hg
  | submitPreview resp =>
      by_cases hsub : s.submitting
      · simp only [stepClient, hsub, if_true]
        exact hs
      · simp only [stepClient, hsub, if_false]
        exact fileOk_of_eq (submitGeneration_file _ _ _ _) hs
  | fullButton resp co =>
      by_cases hsub : s.submitting
      · simp only [stepClient, hsub, if_true]
        exact hs
      · simp only [stepClient, hsub, if_false]
        exact fileOk_of_eq (fullButtonStep_file _ _ _) hs
  | resetEvent => exact fun g hg => Option.noConfusion hg
  | captureSession c t =>
      refine fileOk_of_eq ?_ hs
      unfold stepClient captureSessionStep
      cases c with
      | none => rfl
      | some cv =>
          cases t with
          | none => rfl
          | some tv => by_cases h : cv = "success" ∧ tv ≠ "" <;> simp [h]
  | pollEvent e => exact fileOk_of_eq (pollStep_file s e) hs

theorem submitGeneration_post (mode : Mode) (sid : Option String)
    (s : ClientState) (resp : SubmitResult) (form : MultipartForm)
    (h : Request.postGeneration form ∈ (submitGeneration mode sid s resp).2) :
    ∃ f, s.file = some f ∧ form = buildForm f s.prompt mode sid := by
  unfold submitGeneration at h
  cases hf : s.file with
  | none => simp [hf] at h
  | some f =>
      rw [hf] at h
      by_cases ht : jsTrim s.prompt = ""
      · simp [ht] at h
      · cases resp <;> simp [ht] at h <;> exact ⟨f, rfl, h⟩

theorem stepClient_post (s : ClientState) (e : ClientEvent) (form : MultipartForm)
    (h : Request.postGeneration form ∈ (stepClient s e).2) :
    ∃ f mode sid, s.file = some f ∧ form = buildForm f s.prompt mode sid ∧
      (mode = Mode.full → ∃ t, sid = some t ∧ t ≠ "") := by
  cases e with
  | selectFile chosen => simp [stepClient] at h
  | dropFile dropped => simp [stepClient] at h
  | editPrompt p => simp [stepClient] at h
  | chipClick p => simp [stepClient] at h
  | resetEvent => simp [stepClient] at h
  | captureSession c t => simp [stepClient] at h
  | submitPreview resp =>
      by_cases hsub : s.submitting
      · simp [stepClient, hsub] at h
      · simp only [stepClient, hsub, if_false] at h
        obtain ⟨f, hf, hform⟩ := submitGeneration_post _ _ _ _ _ h
        exact ⟨f, Mode.preview, none, hf, hform, fun hc => absurd hc (by simp)⟩
  | fullButton resp co =>
      by_cases hsub : s.submitting
      · simp [stepClient, hsub] at h
      · have h' : Request.postGeneration form ∈ (fullButtonStep s resp co).2 := by
          simpa [stepClient, hsub] using h
        unfold fullButtonStep at h'
        cases hp : s.paidSessionId with
        | none =>
            rw [hp] at h'
            replace h' : Request.postGeneration form ∈ (createCheckout s co).2 := h'
            cases co <;> simp [createCheckout] at h'
        | some t =>
            rw [hp] at h'
            replace h' : Request.postGeneration form ∈
                (if t = "" then createCheckout s co
                 else submitGeneration Mode.full (some t) s resp).2 := h'
            by_cases ht : t = ""
            · rw [if_pos ht] at h'
              cases co <;> simp [createCheckout] at h'
            · rw [if_neg ht] at h'
              obtain ⟨f, hf, hform⟩ := submitGeneration_post _ _ _ _ _ h'
              exact ⟨f, Mode.full, some t, hf, hform, fun _ => ⟨t, rfl, ht⟩⟩
  | pollEvent pe =>
      cases pe with
      | tick resp =>
          cases ht : s.pollTimer with
          | none => simp [stepClient, pollStep, ht] at h
          | some pr =>
              obtain ⟨id, p⟩ := pr
              simp [stepClient, pollStep, ht] at h
      | effectRun resp =>
          cases hj : s.job with
          | none => simp [stepClient, pollStep, hj] at h
          | some j =>
              by_cases hc : j.id ≠ "" ∧
                (j.status = JobStatus.queued ∨ j.status = JobStatus.processing) <;>
                simp [stepClient, pollStep, hj, hc] at h

theorem runClient_post (evts : List ClientEvent) :
    ∀ (s : ClientState), fileOk s → ∀ form,
      Request.postGeneration form ∈ (runClient s evts).2 →
      ∃ f p mode sid, (validateFile f).1 = true ∧ form = buildForm f p mode sid ∧
        (mode = Mode.full → ∃ t, sid = some t ∧ t ≠ "") := by
  induction evts with
  | nil => intro s _ form h; simp [runClient] at h
  | cons e es ih =>
      intro s hs form h
      have hsplit :
          Request.postGeneration form ∈ (stepClient s e).2 ∨
          Request.postGeneration form ∈ (runClient (stepClient s e).1 es).2 := by
        have : (runClient s (e :: es)).2 =
            (stepClient s e).2 ++ (runClient (stepClient s e).1 es).2 := rfl
        rw [this] at h
        exact List.mem_append.mp h
      rcases hsplit with h1 | h2
      · obtain ⟨f, mode, sid, hf, hform, hfull⟩ := stepClient_post s e form h1
        exact ⟨f, s.prompt, mode, sid, hs f hf, hform, hfull⟩
      · exact ih (stepClient s e).1 (stepClient_fileOk s e hs) form h2

/-! ## Claim C2: only validated files are submitted -/

/-- Claim C2: along any sequence of client events from the initial state,
every POST `/api/generations` body carries a file, and that file passed
`validateFile` (declared type `image/jpeg` or `image/png`, size at most
`8*1024*1024` bytes): the file state is only ever set through the
`validateFile`-gated picker and drop paths, so an invalid upload is never
submitted. -/
theorem posts_carry_validated_file (evts : List ClientEvent)
    (form : MultipartForm)
    (h : Request.postGeneration form ∈ (runClient initState evts).2) :
    (∃ f, ("file", FormValue.fileVal f) ∈ form) ∧
    ∀ f, ("file", FormValue.fileVal f) ∈ form →
      (validateFile f).1 = true ∧
      (f.type = "image/jpeg" ∨ f.type = "image/png") ∧
      f.size ≤ 8 * 1024 * 1024 := by
  obtain ⟨f, p, mode, sid, hval, hform, -⟩ :=
    runClient_post evts initState (fun g hg => Option.noConfusion hg) form h
  subst hform
  refine ⟨⟨f, (buildForm_file_iff f f p mode sid).mpr rfl⟩, ?_⟩
  intro g hg
  obtain rfl := (buildForm_file_iff g f p mode sid).mp hg
  exact ⟨hval, (validateFile_true_iff g).mp hval⟩

theorem posts_carry_validated_file_check :
    ∃ f, ("file", FormValue.fileVal f) ∈
      buildForm { type := "image/png", size := 5 } "hi" Mode.preview none :=
  (posts_carry_validated_file
    [ClientEvent.selectFile (some { type := "image/png", size := 5 }),
     ClientEvent.editPrompt "hi",
     ClientEvent.submitPreview (SubmitResult.ok "j1" JobStatus.queued)]
    (buildForm { type := "image/png", size := 5 } "hi" Mode.preview none)
    (by decide)).1

/-! ## Claim C1: full mode requires a payment session -/

/-- Claim C1: a `full`-mode creation request without a valid payment session
yields `PaymentRequired` and never creates a Job (backend side, modelled from
the spec since the orchestrator is not under `src/`); on the client, when no
paid session id has been captured the full-mode button invokes the external
checkout flow and POSTs no generation request, and every `full`-mode POST the
client ever issues carries a non-empty `session_id`. -/
theorem fullmode_requires_payment :
    (∀ (store : List Job) (f : JSFile) (p : String) (sid : Option String)
       (isPaid : String → Bool) (newId : String),
       (∀ t, sid = some t → isPaid t = false) →
       (handleCreate store f p Mode.full sid isPaid newId).2 = store ∧
       ((f.type = "image/jpeg" ∨ f.type = "image/png") →
         f.size ≤ 8 * 1024 * 1024 →
         (handleCreate store f p Mode.full sid isPaid newId).1 =
           CreateOutcome.paymentRequired)) ∧
    (∀ (s : ClientState) (resp : SubmitResult) (co : CheckoutResult),
       s.paidSessionId = none → s.submitting = false →
       stepClient s (ClientEvent.fullButton resp co) = createCheckout s co ∧
       ∀ form, Request.postGeneration form ∉
         (stepClient s (ClientEvent.fullButton resp co)).2) ∧
    (∀ (evts : List ClientEvent) (form : MultipartForm),
       Request.postGeneration form ∈ (runClient initState evts).2 →
       ("mode", FormValue.strVal "full") ∈ form →
       ∃ t, ("session_id", FormValue.strVal t) ∈ form ∧ t ≠ "") := by
  refine ⟨?_, ?_, ?_⟩
  · intro store f p sid isPaid newId hsid
    by_cases hty : f.type = "image/jpeg" ∨ f.type = "image/png"
    · by_cases hsz : f.size > 8 * 1024 * 1024
      · constructor
        · simp [handleCreate, hty, hsz]
        · intro _ h
          omega
      · have hout : handleCreate store f p Mode.full sid isPaid newId =
            (CreateOutcome.paymentRequired, store) := by
          unfold handleCreate
          rw [if_neg (by tauto), if_neg hsz, if_pos]
          refine ⟨rfl, ?_⟩
          cases sid with
          | none => rfl
          | some t => exact hsid t rfl
        rw [hout]
        exact ⟨rfl, fun _ _ => rfl⟩
    · constructor
      · simp [handleCreate, hty]
      · intro h
        exact absurd h hty
  · intro s resp co hpaid hsub
    have hstep : stepClient s (ClientEvent.fullButton resp co) =
        createCheckout s co := by
      simp only [stepClient, hsub, Bool.false_eq_true, if_false]
      unfold fullButtonStep
      rw [hpaid]
    refine ⟨hstep, fun form hmem => ?_⟩
    rw [hstep] at hmem
    cases co <;> simp [createCheckout] at hmem
  · intro evts form h hmode
    obtain ⟨f, p, mode, sid, -, hform, hfull⟩ :=
      runClient_post evts initState (fun g hg => Option.noConfusion hg) form h
    subst hform
    have hm : mode = Mode.full := by
      have := (buildForm_mode_iff "full" f p mode sid).mp hmode
      exact (mode_toName_full mode).mp this.symm
    obtain ⟨t, hsid, ht⟩ := hfull hm
    exact ⟨t, (buildForm_session_iff t f p mode sid).mpr ⟨hsid, ht⟩, ht⟩

theorem fullmode_requires_payment_check :
    (handleCreate [] { type := "image/png", size := 5 } "p" Mode.full none
        (fun _ => false) "id1").1 = CreateOutcome.paymentRequired ∧
    (handleCreate [] { type := "image/png", size := 5 } "p" Mode.full none
        (fun _ => false) "id1").2 = [] ∧
    (∃ t, ("session_id", FormValue.strVal t) ∈
        buildForm { type := "image/png", size := 5 } "hi" Mode.full (some "cs_9") ∧
      t ≠ "") := by
  have h1 := fullmode_requires_payment.1 [] { type := "image/png", size := 5 }
    "p" none (fun _ => false) "id1" (fun t ht => Option.noConfusion ht)
  have h3 := fullmode_requires_payment.2.2
    [ClientEvent.captureSession (some "success") (some "cs_9"),
     ClientEvent.selectFile (some { type := "image/png", size := 5 }),
     ClientEvent.editPrompt "hi",
     ClientEvent.fullButton (SubmitResult.ok "j1" JobStatus.queued)
       (CheckoutResult.ok "u")]
    (buildForm { type := "image/png", size := 5 } "hi" Mode.full (some "cs_9"))
    (by decide) (by decide)
  exact ⟨h1.2 (Or.inr rfl) (by decide), h1.1, h3⟩

end Manifest
